import Mathlib

/-!
Shallow embedding of the parsing and dispatch core of the `clippy`
command-line-interface library (Go), together with proofs about it.

The embedding follows the Go source file by file:
* `flag.go`    — `Flag`, `FlagSet`, validation (`check`), lookup (`get`),
                 the token scan (`parse`) and help-line rendering (`String`);
* `command.go` / the second version of the command file — `Command`,
  `CommandSet`, their validation and the two variants of `Command.run`
  present in the repository (one with a leading help-token check, one
  without);
* the two versions of the top-level program file — `Clippy` and the two
  variants of `Clippy.Run` present in the repository (`runA`: subcommand
  dispatch first, help/version checked only on the first token; `runB`:
  a scan of every token for help/version before any dispatch).

Go `map[string]string` values are modelled as association lists where
insertion conses a fresh binding and lookup returns the most recent one;
the source only ever writes, reads and membership-tests these maps, so
this models every operation the code performs.  Go runtime panics
(out-of-range indexing) are modelled as an explicit `panicked` outcome.
Action handlers are opaque external collaborators; outcomes record the
flags/arguments a handler would receive rather than running it.
`unicode.IsLetter` / `unicode.IsNumber` are modelled on the ASCII
fragment (`Char.isAlpha` / `Char.isDigit`); every name occurring in the
development is ASCII.
-/

namespace clippy

/-- Errors produced by the core, as a tagged variant type: one constructor
per distinct `fmt.Errorf` site in the source. -/
inductive ClippyError where
  /-- flag.go: "missing name of flag" -/
  | missingFlagName : ClippyError
  /-- flag.go: "invalid character in flag name: %q" -/
  | invalidFlagNameChar (c : Char) : ClippyError
  /-- flag.go: "flag alias is an invalid character: %q" -/
  | invalidAliasChar (c : Char) : ClippyError
  /-- flag.go: "duplicate flag name or alias: %q" -/
  | duplicateFlag (s : String) : ClippyError
  /-- flag.go: "no corresponding value for flag: %q" (carries the flag token) -/
  | missingFlagValue (tok : String) : ClippyError
  /-- flag.go: "no given or default value for flag: %q" (carries the flag name) -/
  | missingRequiredFlag (nm : String) : ClippyError
  /-- command file: "missing name of command" -/
  | missingCommandName : ClippyError
  /-- command file: "invalid character in command name: %q in %q" -/
  | invalidCommandNameChar (c : Char) (nm : String) : ClippyError
  /-- command file: "duplicate command name %q" -/
  | duplicateCommandName (s : String) : ClippyError
deriving DecidableEq

/-- Go `var EmptyValue = "\000"` (flag.go): the reserved sentinel meaning
"the default value is the empty string". -/
def EmptyValue : String := String.singleton (Char.ofNat 0)

/-- Go `type Flag struct` (flag.go).  Field names are the lower-cased Go
field names; `alias = Char.ofNat 0` models Go's `rune(0)` "no alias". -/
structure Flag where
  name : String
  aliasRune : Char
  type : String
  description : String
  defaultValue : String
deriving DecidableEq

/-- The character class accepted in flag and command names:
Go `unicode.IsLetter(c) || unicode.IsNumber(c) || c == '-'`, modelled on
the ASCII fragment. -/
def validNameChar (c : Char) : Bool :=
  c.isAlpha || c.isDigit || c = '-'

/-- Go `func (f *Flag) check() error` (flag.go). -/
def Flag.check (f : Flag) : Option ClippyError :=
  if f.name = "" then some .missingFlagName
  else
    match f.name.toList.find? (fun c => !validNameChar c) with
    | some c => some (.invalidFlagNameChar c)
    | none =>
        if f.aliasRune ≠ Char.ofNat 0 ∧ ¬(f.aliasRune.isAlpha || f.aliasRune.isDigit) then
          some (.invalidAliasChar f.aliasRune)
        else none

/-- Go `type FlagSet []*Flag` (flag.go). -/
abbrev FlagSet := List Flag

/-- The alias of a flag as a list of map keys: `[string(f.Alias)]` when an
alias is present, `[]` otherwise. -/
def aliasKeys (f : Flag) : List String :=
  if f.aliasRune ≠ Char.ofNat 0 then [String.singleton f.aliasRune] else []

/-- All identifiers a flag set inserts into the collision-check set
`names` of `FlagSet.check`, in insertion order: each flag's name followed
by its alias (as a one-character string) when present. -/
def allKeys : List Flag → List String
  | [] => []
  | f :: rest => f.name :: (aliasKeys f ++ allKeys rest)

/-- The loop body of Go `func (fs *FlagSet) check() error` (flag.go),
with the accumulated `names` set made explicit (membership is all the
code uses, so a list models the Go map of seen identifiers). -/
def checkLoop (seen : List String) : List Flag → Option ClippyError
  | [] => none
  | f :: rest =>
      match Flag.check f with
      | some e => some e
      | none =>
          if f.name ∈ seen then some (.duplicateFlag f.name)
          else
            if f.aliasRune ≠ Char.ofNat 0 then
              if String.singleton f.aliasRune ∈ f.name :: seen then
                some (.duplicateFlag (String.singleton f.aliasRune))
              else checkLoop (String.singleton f.aliasRune :: f.name :: seen) rest
            else checkLoop (f.name :: seen) rest

/-- Go `func (fs *FlagSet) check() error` (flag.go). -/
def FlagSet.check (fs : FlagSet) : Option ClippyError :=
  checkLoop [] fs

/-- Go `func (fs *FlagSet) get(name string) *Flag` (flag.go): the first
declared flag matching the token as `"--"+Name`, or as `"-"+Alias` when
an alias is present. -/
def FlagSet.get (fs : FlagSet) (nm : String) : Option Flag :=
  fs.find? (fun f =>
    "--" ++ f.name = nm ||
      (f.aliasRune ≠ Char.ofNat 0 && "-" ++ String.singleton f.aliasRune = nm))

/-- Model of Go `map[string]string`: an association list where the most
recent binding of a key shadows older ones. -/
abbrev Smap := List (String × String)

/-- Map update `m[k] = v`: cons a fresh binding (it shadows any older one). -/
def mapSet (m : Smap) (k v : String) : Smap := (k, v) :: m

/-- Map read `m[k]`: the most recent binding of `k`, if any. -/
def mapFind : Smap → String → Option String
  | [], _ => none
  | (k, v) :: m, key => if k = key then some v else mapFind m key

/-- The first loop of Go `func (fs *FlagSet) parse(params []string)`
(flag.go): the left-to-right scan separating flag/value pairs from
positional arguments.  `flags` and `args` are the Go accumulators. -/
def scanLoop (fs : FlagSet) : List String → Smap → List String → Smap × List String × Option ClippyError
  | [], flags, args => (flags, args, none)
  | p :: rest, flags, args =>
      match FlagSet.get fs p with
      | some f =>
          match rest with
          | v :: rest2 => scanLoop fs rest2 (mapSet flags f.name v) args
          | [] => (flags, args, some (.missingFlagValue p))
      | none => scanLoop fs rest flags (args ++ [p])

/-- The second loop of Go `FlagSet.parse` (flag.go): for every declared
flag absent from the collected map, insert its default value (the
`EmptyValue` sentinel inserts the empty string) or fail when it has no
default.  On failure Go's named returns hand back the map built so far. -/
def applyDefaults (flags : Smap) : List Flag → Smap × Option ClippyError
  | [] => (flags, none)
  | f :: rest =>
      if (mapFind flags f.name).isSome then applyDefaults flags rest
      else if f.defaultValue = "" then (flags, some (.missingRequiredFlag f.name))
      else if f.defaultValue = EmptyValue then applyDefaults (mapSet flags f.name "") rest
      else applyDefaults (mapSet flags f.name f.defaultValue) rest

/-- Go `func (fs *FlagSet) parse(params []string) (flags map[string]string,
args []string, err error)` (flag.go).  Because Go uses named return
values, a failing call still returns the partially built `flags` map and
`args` slice alongside the error. -/
def FlagSet.parse (fs : FlagSet) (params : List String) : Smap × List String × Option ClippyError :=
  match scanLoop fs params [] [] with
  | (flags, args, some e) => (flags, args, some e)
  | (flags, args, none) =>
      match applyDefaults flags fs with
      | (flags2, e2) => (flags2, args, e2)

/-- The value the defaults loop of `parse` inserts for a flag the user did
not supply: the empty string for the `EmptyValue` sentinel, the declared
default otherwise. -/
def defaultFill (f : Flag) : String :=
  if f.defaultValue = EmptyValue then "" else f.defaultValue

/-- One hexadecimal digit, lower case (as produced by Go's `%q` escapes). -/
def hexDigit (n : Nat) : Char :=
  if n < 10 then Char.ofNat (48 + n) else Char.ofNat (87 + n)

/-- Model of Go `%q` escaping for a single character (`strconv.Quote`):
printable ASCII stands for itself with `"` and backslash escaped, the
named control escapes are used where Go uses them, other control
characters become `\xHH` hexadecimal escapes, and characters outside
ASCII (all printable in this development) stand for themselves. -/
def goQuoteChar (c : Char) : String :=
  if c = '"' then "\\\""
  else if c = '\\' then "\\\\"
  else if c = Char.ofNat 7 then "\\a"
  else if c = Char.ofNat 8 then "\\b"
  else if c = Char.ofNat 9 then "\\t"
  else if c = Char.ofNat 10 then "\\n"
  else if c = Char.ofNat 11 then "\\v"
  else if c = Char.ofNat 12 then "\\f"
  else if c = Char.ofNat 13 then "\\r"
  else if 32 ≤ c.toNat ∧ c.toNat < 127 then String.singleton c
  else if c.toNat < 256 then
    "\\x" ++ String.singleton (hexDigit (c.toNat / 16)) ++ String.singleton (hexDigit (c.toNat % 16))
  else String.singleton c

/-- Model of Go `fmt.Sprintf("%q", s)`: the escaped string in double
quotes. -/
def goQuote (s : String) : String :=
  "\"" ++ String.join (s.toList.map goQuoteChar) ++ "\""

/-- Go `func (f *Flag) String() string` (flag.go): the rendered help line
of a flag.  Note the source compares `DefaultValue` against the literal
`"_"` in the first branch, not against `EmptyValue`. -/
def Flag.toString (f : Flag) : String :=
  let s := "--" ++ f.name
  let s := if f.aliasRune ≠ Char.ofNat 0 then s ++ ", -" ++ String.singleton f.aliasRune else s
  let s := s ++ "\t" ++ f.description
  if f.defaultValue = "_" then s ++ " (" ++ goQuote "" ++ ")"
  else if f.defaultValue ≠ "" then s ++ " (" ++ goQuote f.defaultValue ++ ")"
  else s

/-- Go `type Command struct` (command file).  `action` records whether an
`Action` handler is declared (`Action != nil`); handler bodies are opaque
external collaborators, so only their invocation is modelled. -/
structure Command where
  names : List String
  description : String
  usage : String
  flags : FlagSet
  action : Bool
deriving DecidableEq

/-- The per-name character validation loop of Go `func (c *Command) check()
error`: the first disallowed character (with its name) over all names. -/
def cmdNamesCharCheck : List String → Option ClippyError
  | [] => none
  | nm :: rest =>
      match nm.toList.find? (fun c => !validNameChar c) with
      | some ch => some (.invalidCommandNameChar ch nm)
      | none => cmdNamesCharCheck rest

/-- The per-flag validation loop of Go `Command.check`: `f.check()` for
each flag of the command's flag set, first error wins. -/
def flagsEachCheck : List Flag → Option ClippyError
  | [] => none
  | f :: rest =>
      match Flag.check f with
      | some e => some e
      | none => flagsEachCheck rest

/-- Go `func (c *Command) check() error` (command file). -/
def Command.check (c : Command) : Option ClippyError :=
  if c.names.length < 1 then some .missingCommandName
  else
    match cmdNamesCharCheck c.names with
    | some e => some e
    | none => flagsEachCheck c.flags

/-- Outcome of one `Command.run` call.  Constructors mirror the exits of
the Go function: a runtime panic, the help short-circuit, a parse error
returned to the caller, and the two action dispatches. -/
inductive CmdOutcome where
  | panicked : CmdOutcome
  | helpShown : CmdOutcome
  | parseFailed (e : ClippyError) : CmdOutcome
  | defaultActionRun (flags : Smap) (args : List String) : CmdOutcome
  | actionInvoked (flags : Smap) (args : List String) : CmdOutcome
deriving DecidableEq

/-- The common tail of both `Command.run` variants: parse the parameters
against the command's flag set, propagate a parse error, otherwise invoke
the declared action (or the no-op `DefaultAction` when none is declared). -/
def Command.dispatch (c : Command) (params : List String) : CmdOutcome :=
  match FlagSet.parse c.flags params with
  | (_, _, some e) => .parseFailed e
  | (flags, args, none) =>
      if c.action then .actionInvoked flags args else .defaultActionRun flags args

/-- Go `func (c *Command) run(name string, params []string) error` — the
repository's command-run variant with a leading help check.  The Go
condition is `len(params) >= 1 && params[0] == "-h" || params[0] ==
"--help"`; `&&` binds tighter than `||`, so on an empty `params` the
right disjunct still evaluates `params[0]` and the call panics with an
index-out-of-range fault. -/
def Command.run (c : Command) (_progName : String) (params : List String) : CmdOutcome :=
  match params with
  | [] => .panicked
  | p :: _ =>
      if p = "-h" ∨ p = "--help" then .helpShown
      else Command.dispatch c params

/-- Go `func (c *Command) run(parameters []string) error` — the
repository's command-run variant without a help check (command.go). -/
def Command.runBasic (c : Command) (params : List String) : CmdOutcome :=
  Command.dispatch c params

/-- Go `type CommandSet []*Command` (command file). -/
abbrev CommandSet := List Command

/-- Go `func (cs *CommandSet) get(name string) *Command` (command file):
linear scan over commands and each command's names, first match wins. -/
def CommandSet.get (cs : CommandSet) (nm : String) : Option Command :=
  cs.find? (fun c => c.names.contains nm)

/-- The inner name-registration loop of Go `CommandSet.check`: insert each
name of one command into the seen set, failing on the first repeat. -/
def insertNames : List String → List String → Except String (List String)
  | seen, [] => .ok seen
  | seen, nm :: rest =>
      if nm ∈ seen then .error nm else insertNames (nm :: seen) rest

/-- The loop of Go `func (cs *CommandSet) check() error` (command file),
with the accumulated `names` set explicit. -/
def cmdCheckLoop (seen : List String) : List Command → Option ClippyError
  | [] => none
  | c :: rest =>
      match Command.check c with
      | some e => some e
      | none =>
          match insertNames seen c.names with
          | .error nm => some (.duplicateCommandName nm)
          | .ok seen2 => cmdCheckLoop seen2 rest

/-- Go `func (cs *CommandSet) check() error` (command file). -/
def CommandSet.check (cs : CommandSet) : Option ClippyError :=
  cmdCheckLoop [] cs

/-- Go `type Clippy struct` (program file).  The cosmetic fields
(`Tagline`, `Description`, `Authors`, `Usage`) affect only rendered text,
never dispatch, and are omitted from the dispatch model. -/
structure Clippy where
  name : String
  version : String
  flags : FlagSet
  commands : CommandSet
  action : Bool
deriving DecidableEq

/-- Go `func (c *Clippy) Check() error` (program file): flag-set check,
then command-set check. -/
def Clippy.Check (c : Clippy) : Option ClippyError :=
  match FlagSet.check c.flags with
  | some e => some e
  | none => CommandSet.check c.commands

/-- Outcome of one `Clippy.Run` call.  Constructors mirror the distinct
terminal emission points of the Go state machine: setup failure, the
help/version short-circuits, delegation to a command, a global parse
failure, the `HelpAction` fallback (which always reports an error), and
invocation of the declared top-level action. -/
inductive RunOutcome where
  | setupFailed (e : ClippyError) : RunOutcome
  | helpShown : RunOutcome
  | versionShown : RunOutcome
  | commandRun (cmd : Command) (r : CmdOutcome) : RunOutcome
  | parseFailed (e : ClippyError) : RunOutcome
  | helpActionFailed (flags : Smap) (args : List String) : RunOutcome
  | actionInvoked (flags : Smap) (args : List String) : RunOutcome
deriving DecidableEq

/-- The common fall-through tail of both `Clippy.Run` variants: parse the
full token list against the global flag set and invoke the top-level
action, or the always-failing `HelpAction` when none is declared. -/
def Clippy.runDefault (c : Clippy) (params : List String) : RunOutcome :=
  match FlagSet.parse c.flags params with
  | (_, _, some e) => .parseFailed e
  | (flags, args, none) =>
      if c.action then .actionInvoked flags args else .helpActionFailed flags args

/-- The variant of Go `func (c *Clippy) Run(params []string)` whose first
token is checked for a subcommand, then for `-h`/`--help`, then for
`-v`/`--version` (the program file calling `command.run(c.Name,
params[1:])`).  Help/version are recognized only in the first token and
only when it is not a command name. -/
def Clippy.runA (c : Clippy) (params : List String) : RunOutcome :=
  match Clippy.Check c with
  | some e => .setupFailed e
  | none =>
      match params with
      | [] => Clippy.runDefault c []
      | p1 :: rest =>
          match CommandSet.get c.commands p1 with
          | some cmd => .commandRun cmd (Command.run cmd c.name rest)
          | none =>
              if p1 = "-h" ∨ p1 = "--help" then .helpShown
              else if p1 = "-v" ∨ p1 = "--version" then .versionShown
              else Clippy.runDefault c params

/-- The scan over all tokens for the reserved global flags in the other
`Clippy.Run` variant: `some true` for a help token, `some false` for a
version token, testing each token in order. -/
def scanHelpVersion : List String → Option Bool
  | [] => none
  | p :: rest =>
      if p = "--help" ∨ p = "-h" then some true
      else if p = "--version" ∨ p = "-v" then some false
      else scanHelpVersion rest

/-- The variant of Go `func (c *Clippy) Run(params []string)` that first
scans every token for `-h`/`--help`/`-v`/`--version`, then dispatches the
first token as a subcommand (calling `command.run(params[1:])`), then
falls through to the global parse. -/
def Clippy.runB (c : Clippy) (params : List String) : RunOutcome :=
  match Clippy.Check c with
  | some e => .setupFailed e
  | none =>
      match scanHelpVersion params with
      | some true => .helpShown
      | some false => .versionShown
      | none =>
          match params with
          | [] => Clippy.runDefault c []
          | p1 :: rest =>
              match CommandSet.get c.commands p1 with
              | some cmd => .commandRun cmd (Command.runBasic cmd rest)
              | none => Clippy.runDefault c params

/-! Concrete values used by the scenario theorems and witnesses. -/

/-- A mandatory flag: `Flag{Name: "out"}` with no alias and no default
(`DefaultValue` left empty). -/
def outFlag : Flag := ⟨"out", Char.ofNat 0, "", "", ""⟩

/-- `Flag{Name: "out", Alias: 'o', DefaultValue: "a.txt"}`. -/
def outAliasFlag : Flag := ⟨"out", 'o', "FILE", "output file", "a.txt"⟩

/-- A flag named `"a"` with default `"x"`. -/
def flagA : Flag := ⟨"a", Char.ofNat 0, "", "", "x"⟩

/-- A flag named `"b"` with default `"y"`. -/
def flagB : Flag := ⟨"b", Char.ofNat 0, "", "", "y"⟩

/-- A flag named `"x"` (no alias), with a default so that it is optional. -/
def xFlag : Flag := ⟨"x", Char.ofNat 0, "", "", "1"⟩

/-- A flag named `"y"` whose alias is `'x'`, with a default. -/
def yxFlag : Flag := ⟨"y", 'x', "", "", "2"⟩

/-- A flag whose default is the `EmptyValue` sentinel. -/
def sentinelFlag : Flag := ⟨"out", Char.ofNat 0, "", "desc", EmptyValue⟩

/-- A `build` command with a declared action and no flags. -/
def buildCmd : Command := ⟨["build"], "build the project", "", [], true⟩

/-- A small valid program: one global flag with a default, the `build`
command, and a declared top-level action. -/
def demoClippy : Clippy := ⟨"prog", "1.0", [flagA], [buildCmd], true⟩

/-! Lemmas about the map model. -/

/-- Reading back through an update: the updated key yields the new value,
any other key reads the older map. -/
theorem mapFind_mapSet (m : Smap) (k v k' : String) :
    mapFind (mapSet m k v) k' = if k = k' then some v else mapFind m k' := rfl

/-! Lemmas about the token scan. -/

/-- The argument accumulator of the scan only grows, by a subsequence of
the scanned tokens: positional arguments come out verbatim and in their
original relative order. -/
theorem scanLoop_args_sublist (fs : FlagSet) (params : List String) (flags : Smap)
    (args : List String) :
    ∃ t, (scanLoop fs params flags args).2.1 = args ++ t ∧ t.Sublist params := by
  induction params, flags, args using scanLoop.induct fs with
  | case1 flags args => exact ⟨[], by simp [scanLoop], by simp⟩
  | case2 p flags args f hget v rest2 ih =>
      obtain ⟨t, ht, hs⟩ := ih
      exact ⟨t, by simp [scanLoop, hget, ht], (hs.cons _).cons _⟩
  | case3 p flags args f hget =>
      exact ⟨[], by simp [scanLoop, hget], by simp⟩
  | case4 p rest flags args hget ih =>
      obtain ⟨t, ht, hs⟩ := ih
      exact ⟨p :: t, by simp [scanLoop, hget, ht], hs.cons₂ _⟩

/-- The only error the scan produces is `missingFlagValue`. -/
theorem scanLoop_err_form (fs : FlagSet) (params : List String) (flags : Smap)
    (args : List String) :
    ∀ e, (scanLoop fs params flags args).2.2 = some e →
      ∃ t, e = ClippyError.missingFlagValue t := by
  induction params, flags, args using scanLoop.induct fs with
  | case1 flags args => intro e he; simp [scanLoop] at he
  | case2 p flags args f hget v rest2 ih =>
      intro e he
      exact ih e (by simpa [scanLoop, hget] using he)
  | case3 p flags args f hget =>
      intro e he
      simp [scanLoop, hget] at he
      exact ⟨p, he.symm⟩
  | case4 p rest flags args hget ih =>
      intro e he
      exact ih e (by simpa [scanLoop, hget] using he)

/-- Against an empty flag set the scan matches nothing: every token is
appended to the arguments and no error arises. -/
theorem scanLoop_nil_fs (params : List String) (flags : Smap) (args : List String) :
    scanLoop [] params flags args = (flags, args ++ params, none) := by
  induction params generalizing args with
  | nil => simp [scanLoop]
  | cons p rest ih => simp [scanLoop, FlagSet.get, ih]

/-! Lemmas about the defaults loop. -/

/-- The defaults loop never changes a binding that is already present. -/
theorem applyDefaults_find_mono (l : List Flag) (flags : Smap) (k v : String)
    (h : mapFind flags k = some v) :
    mapFind (applyDefaults flags l).1 k = some v := by
  induction l generalizing flags with
  | nil => simpa [applyDefaults] using h
  | cons f rest ih =>
      by_cases hf : (mapFind flags f.name).isSome
      · simpa [applyDefaults, hf] using ih flags h
      · have hne : f.name ≠ k := by
          intro he; rw [he, h] at hf; simp at hf
        by_cases hd0 : f.defaultValue = ""
        · simpa [applyDefaults, hf, hd0] using h
        · by_cases hds : f.defaultValue = EmptyValue
          · simpa [applyDefaults, hf, hd0, hds] using
              ih (mapSet flags f.name "") (by simp [mapFind_mapSet, hne, h])
          · simpa [applyDefaults, hf, hd0, hds] using
              ih (mapSet flags f.name f.defaultValue) (by simp [mapFind_mapSet, hne, h])

/-- The only error the defaults loop produces is `missingRequiredFlag`. -/
theorem applyDefaults_err_form (l : List Flag) (flags : Smap) :
    ∀ e, (applyDefaults flags l).2 = some e → ∃ n, e = ClippyError.missingRequiredFlag n := by
  induction l generalizing flags with
  | nil => intro e he; simp [applyDefaults] at he
  | cons f rest ih =>
      intro e he
      by_cases hf : (mapFind flags f.name).isSome
      · exact ih flags e (by simpa [applyDefaults, hf] using he)
      · by_cases hd0 : f.defaultValue = ""
        · simp [applyDefaults, hf, hd0] at he
          exact ⟨f.name, he.symm⟩
        · by_cases hds : f.defaultValue = EmptyValue
          · exact ih _ e (by simpa [applyDefaults, hf, hd0, hds] using he)
          · exact ih _ e (by simpa [applyDefaults, hf, hd0, hds] using he)

/-- When the declared names are pairwise distinct and the defaults loop
succeeds, every declared flag ends up bound: to its pre-existing binding
when one exists, and to its (sentinel-resolved) default otherwise. -/
theorem applyDefaults_covers (l : List Flag) (flags : Smap)
    (hnd : (l.map Flag.name).Nodup)
    (hok : (applyDefaults flags l).2 = none) :
    ∀ f ∈ l, mapFind (applyDefaults flags l).1 f.name =
      (match mapFind flags f.name with
       | some v => some v
       | none => some (defaultFill f)) := by
  induction l generalizing flags with
  | nil => intro f hf; cases hf
  | cons g rest ih =>
      intro f hf
      have hnd' : (rest.map Flag.name).Nodup := (List.nodup_cons.mp hnd).2
      have hgn : g.name ∉ rest.map Flag.name := (List.nodup_cons.mp hnd).1
      by_cases hg : (mapFind flags g.name).isSome
      · rcases List.mem_cons.mp hf with rfl | hfr
        · obtain ⟨v, hv⟩ := Option.isSome_iff_exists.mp hg
          rw [hv]
          simpa [applyDefaults, hg] using applyDefaults_find_mono rest flags f.name v hv
        · have := ih flags hnd' (by simpa [applyDefaults, hg] using hok) f hfr
          simpa [applyDefaults, hg] using this
      · have hgnone : mapFind flags g.name = none := by
          cases hmg : mapFind flags g.name with
          | none => rfl
          | some v => rw [hmg] at hg; simp at hg
        by_cases hd0 : g.defaultValue = ""
        · simp [applyDefaults, hg, hd0] at hok
        · have hfill : defaultFill g = if g.defaultValue = EmptyValue then "" else g.defaultValue := rfl
          by_cases hds : g.defaultValue = EmptyValue
          · rcases List.mem_cons.mp hf with rfl | hfr
            · rw [hgnone]
              have hset : mapFind (mapSet flags f.name "") f.name = some "" := by
                simp [mapFind_mapSet]
              simpa [applyDefaults, hg, hd0, hds, defaultFill] using
                applyDefaults_find_mono rest (mapSet flags f.name "") f.name "" hset
            · have hne : g.name ≠ f.name := by
                intro he; exact hgn (he ▸ List.mem_map_of_mem Flag.name hfr)
              have := ih (mapSet flags g.name "") hnd'
                (by simpa [applyDefaults, hg, hd0, hds] using hok) f hfr
              rw [mapFind_mapSet, if_neg hne] at this
              simpa [applyDefaults, hg, hd0, hds] using this
          · rcases List.mem_cons.mp hf with rfl | hfr
            · rw [hgnone]
              have hset : mapFind (mapSet flags f.name f.defaultValue) f.name
                  = some f.defaultValue := by simp [mapFind_mapSet]
              simpa [applyDefaults, hg, hd0, hds, defaultFill] using
                applyDefaults_find_mono rest (mapSet flags f.name f.defaultValue)
                  f.name f.defaultValue hset
            · have hne : g.name ≠ f.name := by
                intro he; exact hgn (he ▸ List.mem_map_of_mem Flag.name hfr)
              have := ih (mapSet flags g.name g.defaultValue) hnd'
                (by simpa [applyDefaults, hg, hd0, hds] using hok) f hfr
              rw [mapFind_mapSet, if_neg hne] at this
              simpa [applyDefaults, hg, hd0, hds] using this

/-! Lemmas about `FlagSet.parse` as a whole. -/

/-- Against the empty flag set, `parse` returns every token as a
positional argument, an empty flags map, and no error. -/
theorem parse_nil_fs (params : List String) :
    FlagSet.parse ([] : FlagSet) params = ([], params, none) := by
  simp [FlagSet.parse, scanLoop_nil_fs, applyDefaults]

/-- A failing `parse` fails with `missingFlagValue` or
`missingRequiredFlag` and with nothing else. -/
theorem parse_err_form (fs : FlagSet) (params : List String) (flags : Smap)
    (args : List String) (e : ClippyError)
    (h : FlagSet.parse fs params = (flags, args, some e)) :
    (∃ t, e = ClippyError.missingFlagValue t) ∨
      (∃ n, e = ClippyError.missingRequiredFlag n) := by
  rcases hscan : scanLoop fs params [] [] with ⟨sf, sa, serr⟩
  cases serr with
  | some e' =>
      left
      rw [FlagSet.parse, hscan] at h
      simp at h
      exact h.2.2 ▸ scanLoop_err_form fs params [] [] e' (by rw [hscan])
  | none =>
      right
      rcases hdef : applyDefaults sf fs with ⟨df, de⟩
      rw [FlagSet.parse, hscan] at h
      simp only [hdef] at h
      simp at h
      exact applyDefaults_err_form fs sf e (by rw [hdef, h.2.2])

/-! Lemmas about `FlagSet.check`. -/

/-- A name of a flag in a list is one of the list's collision keys. -/
theorem mem_allKeys_of_mem_names (l : List Flag) (k : String)
    (h : k ∈ l.map Flag.name) : k ∈ allKeys l := by
  induction l with
  | nil => simp at h
  | cons f rest ih =>
      rw [List.map_cons] at h
      rcases List.mem_cons.mp h with hk | hk
      · simp [allKeys, hk]
      · rw [allKeys]
        exact List.mem_cons.mpr (.inr (List.mem_append_right _ (ih hk)))

/-- If the collision keys of a flag list are pairwise distinct, so are
its names. -/
theorem names_nodup_of_allKeys_nodup (l : List Flag)
    (h : (allKeys l).Nodup) : (l.map Flag.name).Nodup := by
  induction l with
  | nil => simp
  | cons f rest ih =>
      rw [allKeys] at h
      have h1 := (List.nodup_cons.mp h).1
      have h2 := (List.nodup_cons.mp h).2
      refine List.nodup_cons.mpr ⟨?_, ih h2.of_append_right⟩
      intro hmem
      exact h1 (List.mem_append_right _ (mem_allKeys_of_mem_names rest f.name (by simpa using hmem)))

/-- A successful run of the `check` loop means: the collision keys of the
remaining flags are pairwise distinct and none of them was seen before. -/
theorem checkLoop_none_spec (l : List Flag) (seen : List String)
    (h : checkLoop seen l = none) :
    (allKeys l).Nodup ∧ ∀ k ∈ allKeys l, k ∉ seen := by
  induction l generalizing seen with
  | nil => simp [allKeys]
  | cons f rest ih =>
      cases hfc : Flag.check f with
      | some e => rw [checkLoop, hfc] at h; simp at h
      | none =>
          rw [checkLoop, hfc] at h
          by_cases h1 : f.name ∈ seen
          · simp [h1] at h
          · rw [if_neg h1] at h
            by_cases h2 : f.aliasRune ≠ Char.ofNat 0
            · rw [if_pos h2] at h
              by_cases h3 : String.singleton f.aliasRune ∈ f.name :: seen
              · simp [h3] at h
              · rw [if_neg h3] at h
                obtain ⟨hnd, hsub⟩ := ih _ h
                have hane : String.singleton f.aliasRune ≠ f.name := by
                  intro he; exact h3 (by simp [he])
                have hans : String.singleton f.aliasRune ∉ seen := by
                  intro he; exact h3 (by simp [he])
                have hak : aliasKeys f = [String.singleton f.aliasRune] := by
                  simp [aliasKeys, h2]
                constructor
                · rw [allKeys, hak, List.singleton_append]
                  refine List.nodup_cons.mpr ⟨?_, List.nodup_cons.mpr ⟨?_, hnd⟩⟩
                  · intro hmem
                    rcases List.mem_cons.mp hmem with he | hmem
                    · exact hane he.symm
                    · exact hsub f.name hmem (by simp)
                  · intro hmem
                    exact hsub _ hmem (by simp)
                · intro k hk
                  rw [allKeys, hak, List.singleton_append] at hk
                  rcases List.mem_cons.mp hk with rfl | hk
                  · exact h1
                  · rcases List.mem_cons.mp hk with rfl | hk
                    · exact hans
                    · intro hks
                      exact hsub k hk (by simp [hks])
            · rw [if_neg h2] at h
              obtain ⟨hnd, hsub⟩ := ih _ h
              have hak : aliasKeys f = [] := by simp [aliasKeys, h2]
              constructor
              · rw [allKeys, hak, List.nil_append]
                refine List.nodup_cons.mpr ⟨?_, hnd⟩
                intro hmem
                exact hsub f.name hmem (by simp)
              · intro k hk
                rw [allKeys, hak, List.nil_append] at hk
                rcases List.mem_cons.mp hk with rfl | hk
                · exact h1
                · intro hks
                  exact hsub k hk (by simp [hks])

/-- When every flag is individually valid, the `check` loop either
succeeds or reports a duplicate. -/
theorem checkLoop_dichotomy (l : List Flag) (seen : List String)
    (hv : ∀ f ∈ l, Flag.check f = none) :
    checkLoop seen l = none ∨ ∃ s, checkLoop seen l = some (ClippyError.duplicateFlag s) := by
  induction l generalizing seen with
  | nil => left; rfl
  | cons f rest ih =>
      have hf := hv f (by simp)
      by_cases h1 : f.name ∈ seen
      · right; exact ⟨f.name, by rw [checkLoop, hf]; simp [h1]⟩
      · by_cases h2 : f.aliasRune ≠ Char.ofNat 0
        · by_cases h3 : String.singleton f.aliasRune ∈ f.name :: seen
          · right
            refine ⟨String.singleton f.aliasRune, ?_⟩
            rw [checkLoop, hf, if_neg h1, if_pos h2, if_pos h3]
          · have := ih (String.singleton f.aliasRune :: f.name :: seen)
              (fun g hg => hv g (by simp [hg]))
            rw [checkLoop, hf, if_neg h1, if_pos h2, if_neg h3]
            exact this
        · have := ih (f.name :: seen) (fun g hg => hv g (by simp [hg]))
          rw [checkLoop, hf, if_neg h1, if_neg h2]
          exact this

/-- A successful `FlagSet.check` makes the declared names pairwise
distinct. -/
theorem check_names_nodup (fs : FlagSet) (h : FlagSet.check fs = none) :
    (fs.map Flag.name).Nodup :=
  names_nodup_of_allKeys_nodup fs (checkLoop_none_spec fs [] h).1

/-- A command with the flags `a` and `b`, used by witnesses. -/
def abCmd : Command := ⟨["go"], "", "", [flagA, flagB], true⟩

/-! The claims. -/

/-- Claim C1: for every `FlagSet` that passes `check` and every token
list, `parse` either returns a flags mapping with an entry for every
declared flag — the scanned (supplied) value when one was given,
otherwise the declared default, the `EmptyValue` sentinel resolving to
the empty string — or fails with exactly one of `missingFlagValue` /
`missingRequiredFlag`; in particular, the mandatory flag `out` absent
from the input makes `parse` fail with `missingRequiredFlag "out"`. -/
theorem parse_total_coverage (fs : FlagSet) (params : List String)
    (h : FlagSet.check fs = none) :
    ((∀ flags args, FlagSet.parse fs params = (flags, args, none) →
        ∀ f ∈ fs, mapFind flags f.name =
          (match mapFind (scanLoop fs params [] []).1 f.name with
           | some v => some v
           | none => some (defaultFill f))) ∧
      (∀ flags args e, FlagSet.parse fs params = (flags, args, some e) →
        (∃ t, e = ClippyError.missingFlagValue t) ∨
          (∃ n, e = ClippyError.missingRequiredFlag n))) ∧
    FlagSet.parse [outFlag] [] = ([], [], some (ClippyError.missingRequiredFlag "out")) := by
  refine ⟨⟨?_, ?_⟩, by decide⟩
  · intro flags args hp f hf
    rcases hscan : scanLoop fs params [] [] with ⟨sf, sa, serr⟩
    cases serr with
    | some e' =>
        rw [FlagSet.parse, hscan] at hp
        simp at hp
    | none =>
        rcases hdef : applyDefaults sf fs with ⟨df, de⟩
        rw [FlagSet.parse, hscan] at hp
        simp only [hdef] at hp
        simp at hp
        obtain ⟨h1, h2, h3⟩ := hp
        have hcov := applyDefaults_covers fs sf (check_names_nodup fs h)
          (by rw [hdef]; exact h3) f hf
        rw [hdef] at hcov
        rw [h1] at hcov
        exact hcov
  · intro flags args e hp
    exact parse_err_form fs params flags args e hp

/-- Witness for C1: the theorem applied to the flag set `[flagA]` (which
passes `check`) and the empty token list. -/
theorem parse_total_coverage_witness :
    FlagSet.check [flagA] = none ∧
      (((∀ flags args, FlagSet.parse [flagA] [] = (flags, args, none) →
          ∀ f ∈ [flagA], mapFind flags f.name =
            (match mapFind (scanLoop [flagA] [] [] []).1 f.name with
             | some v => some v
             | none => some (defaultFill f))) ∧
        (∀ flags args e, FlagSet.parse [flagA] [] = (flags, args, some e) →
          (∃ t, e = ClippyError.missingFlagValue t) ∨
            (∃ n, e = ClippyError.missingRequiredFlag n))) ∧
      FlagSet.parse [outFlag] [] = ([], [], some (ClippyError.missingRequiredFlag "out"))) :=
  ⟨by decide, parse_total_coverage [flagA] [] (by decide)⟩

/-- The first help or version token wins the scan: a reserved token
anywhere in the list makes the scan return a result. -/
theorem scanHelpVersion_isSome (params : List String) (t : String) (hm : t ∈ params)
    (ht : t = "-h" ∨ t = "--help" ∨ t = "-v" ∨ t = "--version") :
    scanHelpVersion params = some true ∨ scanHelpVersion params = some false := by
  induction params with
  | nil => cases hm
  | cons p rest ih =>
      by_cases h1 : p = "--help" ∨ p = "-h"
      · left; rw [scanHelpVersion, if_pos h1]
      · by_cases h2 : p = "--version" ∨ p = "-v"
        · right; rw [scanHelpVersion, if_neg h1, if_pos h2]
        · have htr : t ∈ rest := by
            rcases List.mem_cons.mp hm with rfl | hmr
            · exfalso
              rcases ht with rfl | rfl | rfl | rfl
              · exact h1 (.inr rfl)
              · exact h1 (.inl rfl)
              · exact h2 (.inr rfl)
              · exact h2 (.inl rfl)
            · exact hmr
          rw [scanHelpVersion, if_neg h1, if_neg h2]
          exact ih htr

/-- Claim C2: in the `Run` variant that scans every token, a help token
(`-h`/`--help`) or version token (`-v`/`--version`) anywhere in the
input makes `Run` emit help or version text and terminate successfully,
suppressing subcommand dispatch, global flag parsing and every action
(the outcome is `helpShown` or `versionShown` and no other). -/
theorem run_help_version_short_circuit (c : Clippy) (params : List String) (t : String)
    (hchk : Clippy.Check c = none) (hm : t ∈ params)
    (ht : t = "-h" ∨ t = "--help" ∨ t = "-v" ∨ t = "--version") :
    Clippy.runB c params = RunOutcome.helpShown ∨
      Clippy.runB c params = RunOutcome.versionShown := by
  rcases scanHelpVersion_isSome params t hm ht with hs | hs
  · left; simp [Clippy.runB, hchk, hs]
  · right; simp [Clippy.runB, hchk, hs]

/-- Witness for C2: `-h` in second position short-circuits the demo
program's run. -/
theorem run_help_version_short_circuit_witness :
    Clippy.Check demoClippy = none ∧ ("-h" : String) ∈ ["x", "-h"] ∧
      (Clippy.runB demoClippy ["x", "-h"] = RunOutcome.helpShown ∨
        Clippy.runB demoClippy ["x", "-h"] = RunOutcome.versionShown) :=
  ⟨by decide, by decide,
    run_help_version_short_circuit demoClippy ["x", "-h"] "-h" (by decide) (by decide)
      (.inl rfl)⟩

/-- Claim C3: when the first token names a declared command and the next
token is `-h` or `--help`, `Run` (the variant dispatching the command
before any help check, whose command-run checks its first remaining
token for help) emits that command's help text and returns success: the
command's flag set is never parsed and its action is never invoked. -/
theorem run_command_help (cl : Clippy) (p htok : String) (rest : List String) (cmd : Command)
    (hchk : Clippy.Check cl = none)
    (hget : CommandSet.get cl.commands p = some cmd)
    (ht : htok = "-h" ∨ htok = "--help") :
    Clippy.runA cl (p :: htok :: rest) = RunOutcome.commandRun cmd CmdOutcome.helpShown := by
  have hrun : Command.run cmd cl.name (htok :: rest) = CmdOutcome.helpShown := by
    rcases ht with rfl | rfl <;> simp [Command.run]
  simp [Clippy.runA, hchk, hget, hrun]

/-- Witness for C3: `["build", "--help"]` on the demo program emits the
build command's help. -/
theorem run_command_help_witness :
    Clippy.Check demoClippy = none ∧
      CommandSet.get demoClippy.commands "build" = some buildCmd ∧
      Clippy.runA demoClippy ["build", "--help"]
        = RunOutcome.commandRun buildCmd CmdOutcome.helpShown :=
  ⟨by decide, by decide,
    run_command_help demoClippy "build" "--help" [] buildCmd (by decide) (by decide)
      (.inr rfl)⟩

/-- Counterexample for C4: a failing `parse` does return a partial flags
mapping alongside the error.  On the flag set `[a, b]` and tokens
`["--a", "1", "--b"]` the call fails with `missingFlagValue "--b"`, yet
the returned mapping already binds `a` to `"1"` (Go's named return
values hand back the partially built map). -/
theorem parse_partial_map_counterexample :
    (FlagSet.parse [flagA, flagB] ["--a", "1", "--b"]).2.2
        = some (ClippyError.missingFlagValue "--b") ∧
      mapFind (FlagSet.parse [flagA, flagB] ["--a", "1", "--b"]).1 "a" = some "1" := by
  decide

/-- Claim C4 (amended): whenever `parse` fails it fails with
`missingFlagValue` or `missingRequiredFlag`, and the partially built
flags mapping returned alongside the error is never consumed: the
command-run caller propagates the error without invoking any action. -/
theorem parse_fail_discarded (cmd : Command) (params : List String) (flags : Smap)
    (args : List String) (e : ClippyError)
    (hp : FlagSet.parse cmd.flags params = (flags, args, some e)) :
    ((∃ t, e = ClippyError.missingFlagValue t) ∨
        (∃ n, e = ClippyError.missingRequiredFlag n)) ∧
      Command.runBasic cmd params = CmdOutcome.parseFailed e := by
  refine ⟨parse_err_form _ _ _ _ _ hp, ?_⟩
  simp [Command.runBasic, Command.dispatch, hp]

/-- Witness for C4's amended statement at the command `abCmd` and a
dangling `--b`. -/
theorem parse_fail_discarded_witness :
    FlagSet.parse abCmd.flags ["--a", "1", "--b"]
        = ([("a", "1")], [], some (ClippyError.missingFlagValue "--b")) ∧
      (((∃ t, ClippyError.missingFlagValue "--b" = ClippyError.missingFlagValue t) ∨
          (∃ n, ClippyError.missingFlagValue "--b" = ClippyError.missingRequiredFlag n)) ∧
        Command.runBasic abCmd ["--a", "1", "--b"]
          = CmdOutcome.parseFailed (ClippyError.missingFlagValue "--b")) :=
  ⟨by decide,
    parse_fail_discarded abCmd ["--a", "1", "--b"] [("a", "1")] []
      (ClippyError.missingFlagValue "--b") (by decide)⟩

/-- Claim C5: every token matching no declared flag form is appended
verbatim to the argument sequence with no error — in particular, against
an empty flag set every token (flag-looking or not) comes back as an
argument — and the returned argument sequence is a subsequence of the
input: original relative order, with the matched flag/value pairs
removed. -/
theorem parse_unmatched_args :
    (∀ (fs : FlagSet) (params : List String) (flags : Smap) (args : List String)
        (err : Option ClippyError),
        FlagSet.parse fs params = (flags, args, err) → args.Sublist params) ∧
      (∀ params : List String, FlagSet.parse ([] : FlagSet) params = ([], params, none)) := by
  constructor
  · intro fs params flags args err hp
    rcases hscan : scanLoop fs params [] [] with ⟨sf, sa, serr⟩
    have hsa : sa.Sublist params := by
      obtain ⟨t, ht, hs⟩ := scanLoop_args_sublist fs params [] []
      rw [hscan] at ht
      simp at ht
      rw [ht]
      exact hs
    cases serr with
    | some e' =>
        rw [FlagSet.parse, hscan] at hp
        simp at hp
        rw [← hp.2.1]
        exact hsa
    | none =>
        rcases hdef : applyDefaults sf fs with ⟨df, de⟩
        rw [FlagSet.parse, hscan] at hp
        simp only [hdef] at hp
        simp at hp
        rw [← hp.2.1]
        exact hsa
  · exact parse_nil_fs

/-- Witness for C5: the scenario `["--unknown", "y"]` against the empty
flag set, and the subsequence property at that input. -/
theorem parse_unmatched_args_witness :
    FlagSet.parse ([] : FlagSet) ["--unknown", "y"] = ([], ["--unknown", "y"], none) ∧
      (["--unknown", "y"] : List String).Sublist ["--unknown", "y"] :=
  ⟨parse_unmatched_args.2 ["--unknown", "y"],
    parse_unmatched_args.1 [] ["--unknown", "y"] [] ["--unknown", "y"] none (by decide)⟩

/-- Claim C6: a token matched as a declared flag (by `--name` or by
`-alias`) consumes the immediately following token as its value — even a
flag-looking one — records it under the canonical flag name, and the
scan resumes after the value, which is never re-scanned; the scenario
`["-o", "b.txt", "x"]` against `[{out, alias o, default "a.txt"}]`
yields flags `{out: "b.txt"}` and arguments `["x"]`. -/
theorem parse_value_consumed :
    (∀ (fs : FlagSet) (p v : String) (rest : List String) (f : Flag) (flags : Smap)
        (args : List String), FlagSet.get fs p = some f →
        scanLoop fs (p :: v :: rest) flags args
          = scanLoop fs rest (mapSet flags f.name v) args) ∧
      FlagSet.parse [outAliasFlag] ["-o", "b.txt", "x"] = ([("out", "b.txt")], ["x"], none) := by
  constructor
  · intro fs p v rest f flags args hget
    simp [scanLoop, hget]
  · decide

/-- Witness for C6: the step equation at the alias token `-o`. -/
theorem parse_value_consumed_witness :
    FlagSet.get [outAliasFlag] "-o" = some outAliasFlag ∧
      scanLoop [outAliasFlag] ["-o", "--out", "r"] [] []
        = scanLoop [outAliasFlag] ["r"] (mapSet [] "out" "--out") [] :=
  ⟨by decide,
    parse_value_consumed.1 [outAliasFlag] "-o" "--out" ["r"] outAliasFlag [] [] (by decide)⟩

/-- Claim C7: `FlagSet.check` fails with a duplicate-flag error whenever
a (individually valid) flag's name or alias repeats an earlier-seen name
or alias — names and aliases share one collision namespace, so a flag
named `x` followed by a flag aliased `x` collides — and consequently in
every flag set `check` accepts, all names and aliases are pairwise
distinct (the collision-key list has no duplicates). -/
theorem check_collision_free :
    (∀ fs : FlagSet, FlagSet.check fs = none → (allKeys fs).Nodup) ∧
      (∀ fs : FlagSet, (∀ f ∈ fs, Flag.check f = none) → ¬(allKeys fs).Nodup →
        ∃ s, FlagSet.check fs = some (ClippyError.duplicateFlag s)) ∧
      FlagSet.check [xFlag, yxFlag] = some (ClippyError.duplicateFlag "x") := by
  refine ⟨?_, ?_, by decide⟩
  · intro fs h
    exact (checkLoop_none_spec fs [] h).1
  · intro fs hv hnd
    rcases checkLoop_dichotomy fs [] hv with hok | ⟨s, hs⟩
    · exact absurd (checkLoop_none_spec fs [] hok).1 hnd
    · exact ⟨s, hs⟩

/-- Witness for C7: both general directions at concrete flag sets. -/
theorem check_collision_free_witness :
    FlagSet.check [xFlag] = none ∧ (allKeys [xFlag]).Nodup ∧
      (∀ f ∈ [xFlag, yxFlag], Flag.check f = none) ∧
      ¬(allKeys [xFlag, yxFlag]).Nodup ∧
      (∃ s, FlagSet.check [xFlag, yxFlag] = some (ClippyError.duplicateFlag s)) :=
  ⟨by decide, check_collision_free.1 [xFlag] (by decide), by decide, by decide,
    check_collision_free.2.1 [xFlag, yxFlag] (by decide) (by decide)⟩

/-- Claim C8: re-parsing the argument sequence returned by any successful
`parse` against an empty flag set succeeds and returns that same
sequence unchanged, with an empty flags mapping. -/
theorem parse_args_idempotent (fs : FlagSet) (params : List String) (flags : Smap)
    (args : List String) (_h : FlagSet.parse fs params = (flags, args, none)) :
    FlagSet.parse ([] : FlagSet) args = ([], args, none) :=
  parse_nil_fs args

/-- Witness for C8 at a concrete successful parse. -/
theorem parse_args_idempotent_witness :
    FlagSet.parse [outAliasFlag] ["-o", "b.txt", "x"] = ([("out", "b.txt")], ["x"], none) ∧
      FlagSet.parse ([] : FlagSet) ["x"] = ([], ["x"], none) :=
  ⟨by decide,
    parse_args_idempotent [outAliasFlag] ["-o", "b.txt", "x"] [("out", "b.txt")] ["x"]
      (by decide)⟩

/-- Claim C9 (code bug): `Flag.String` appends a quoted default to the
description when one exists, but the explicitly-empty sentinel does not
render as `("")`: the source compares the default against the stale
literal `"_"` instead of `EmptyValue` (`"\x00"`), so a sentinel default
falls into the generic branch and renders as `("\x00")`. -/
theorem flag_sentinel_render_bug :
    Flag.toString sentinelFlag = "--out\tdesc (\"\\x00\")" ∧
      Flag.toString sentinelFlag ≠ "--out\tdesc (\"\")" ∧
      Flag.toString (⟨"out", Char.ofNat 0, "", "desc", "_"⟩ : Flag) = "--out\tdesc (\"\")" ∧
      Flag.toString outAliasFlag = "--out, -o\toutput file (\"a.txt\")" := by
  decide

/-- Claim C10 (code bug): the command-run variant with the help check is
not total on an empty remaining-parameter list.  The Go condition
`len(params) >= 1 && params[0] == "-h" || params[0] == "--help"`
evaluates `params[0]` whenever the left conjunction is false, so an
invocation consisting of just the command name panics; the zero-token
parse itself would have succeeded. -/
theorem command_run_empty_params_panics :
    Command.run buildCmd "prog" [] = CmdOutcome.panicked ∧
      FlagSet.parse buildCmd.flags [] = ([], [], none) := by
  decide

end clippy
